import Mathlib

/-!
Shallow embedding of the ai-larious backend (src/index.js): an in-memory
room registry and a per-room game state machine for a multiplayer party
game. JavaScript objects are modelled as insertion-ordered association
lists; keys are unique in every state the program builds. JavaScript
numbers stored in scores are modelled by JsNum, since incrementing a
missing entry (undefined + 1) produces NaN. Each socket event handler is
modelled as a pure function from the registry (plus the event payload) to
the new registry; broadcasts are dropped and acknowledgments are kept
where they are the observable result. The two random draws of the source
(the room code and the selected prompt index) are passed as explicit
parameters.
-/

namespace AiLarious

/-- Property lookup on a JavaScript object: the value at the first matching
key, or none for undefined. -/
def objGet {α : Type} : List (String × α) → String → Option α
  | [], _ => none
  | (a, v) :: rest, k => if a = k then some v else objGet rest k

/-- Property assignment on a JavaScript object: replaces the value in place
when the key is present, otherwise appends the new entry at the end. -/
def objSet {α : Type} : List (String × α) → String → α → List (String × α)
  | [], k, v => [(k, v)]
  | (a, w) :: rest, k, v => if a = k then (k, v) :: rest else (a, w) :: objSet rest k v

/-- The delete operator applied to a JavaScript object key. -/
def objDelete {α : Type} (m : List (String × α)) (k : String) : List (String × α) :=
  m.filter (fun p => decide (p.1 ≠ k))

/-- Object.keys in insertion order. -/
def objKeys {α : Type} (m : List (String × α)) : List String :=
  m.map Prod.fst

/-- Object.values in insertion order. -/
def objValues {α : Type} (m : List (String × α)) : List α :=
  m.map Prod.snd

/-- A JavaScript number as stored in scores: an integer, or NaN. -/
inductive JsNum where
  | int (n : Int)
  | nan
deriving DecidableEq

/-- Evaluation of scores[w] + 1 in JavaScript: adding 1 to a missing entry
(undefined) or to NaN yields NaN. -/
def jsInc : Option JsNum → JsNum
  | some (JsNum.int n) => JsNum.int (n + 1)
  | some JsNum.nan => JsNum.nan
  | none => JsNum.nan

/-- Game phases of a room. -/
inductive Phase where
  | waiting
  | promptSubmission
  | captionSubmission
  | voting
  | result
deriving DecidableEq

/-- A player entry as pushed by the joinGame handler. -/
structure Player where
  id : String
  name : String
deriving DecidableEq

/-- The gameState object of a room. Prompt and caption entries are
(connection id, text) pairs in push order; votes maps voter id to the
voted caption id. -/
structure GameState where
  phase : Phase
  round : Nat
  prompts : List (String × String)
  imageUrl : String
  captions : List (String × String)
  votes : List (String × String)
deriving DecidableEq

/-- A room of the registry. -/
structure Room where
  host : String
  players : List Player
  gameState : GameState
  scores : List (String × JsNum)
deriving DecidableEq

/-- The room object installed by the createGame handler. -/
def initialRoom (hostId : String) : Room :=
  { host := hostId,
    players := [],
    gameState :=
      { phase := Phase.waiting,
        round := 1,
        prompts := [],
        imageUrl := "",
        captions := [],
        votes := [] },
    scores := [] }

/-- createGame handler: installs a fresh room under the generated code (the
random code is an explicit parameter) and acknowledges with the code. -/
def createGame (rooms : List (String × Room)) (roomCode socketId : String) :
    List (String × Room) × String :=
  (objSet rooms roomCode (initialRoom socketId), roomCode)

/-- Acknowledgment of the joinGame handler. -/
inductive JoinAck where
  | success
  | failure (message : String)
deriving DecidableEq

/-- Effect of joinGame on the found room: push the player and initialize
the score entry to 0. -/
def joinGameRoom (socketId playerName : String) (room : Room) : Room :=
  { room with
      players := room.players ++ [{ id := socketId, name := playerName }],
      scores := objSet room.scores socketId (JsNum.int 0) }

/-- joinGame handler. -/
def joinGame (rooms : List (String × Room)) (roomCode socketId playerName : String) :
    List (String × Room) × JoinAck :=
  match objGet rooms roomCode with
  | some room =>
      (objSet rooms roomCode (joinGameRoom socketId playerName room), JoinAck.success)
  | none => (rooms, JoinAck.failure "Room not found.")

/-- Effect of startGame on the found room when the requester is the host. -/
def startGameRoom (room : Room) : Room :=
  { room with gameState := { room.gameState with phase := Phase.promptSubmission } }

/-- startGame handler: the only guard in the source is host identity; the
current phase is not inspected. -/
def startGame (rooms : List (String × Room)) (roomCode socketId : String) :
    List (String × Room) :=
  match objGet rooms roomCode with
  | some room =>
      if socketId = room.host then objSet rooms roomCode (startGameRoom room)
      else rooms
  | none => rooms

/-- generateAIImage placeholder of the source: always succeeds with a fixed
URL, ignoring the prompt. -/
def generateAIImage (_promptText : String) : String :=
  "https://example.com/generated-image.png"

/-- Selection of prompts[Math.floor(Math.random() * prompts.length)].prompt;
the random draw is the parameter pick, reduced modulo the length. -/
def selectedPromptOf (prompts : List (String × String)) (pick : Nat) : String :=
  (prompts.getD (pick % prompts.length) ("", "")).2

/-- Effect of submitPrompt on the found room: push the prompt entry, then,
when the prompt count equals the player count, generate the image and move
to captionSubmission (the placeholder generator never throws). -/
def submitPromptRoom (socketId promptText : String) (pick : Nat) (room : Room) : Room :=
  let prompts' := room.gameState.prompts ++ [(socketId, promptText)]
  if prompts'.length = room.players.length then
    { room with
        gameState :=
          { room.gameState with
              prompts := prompts',
              imageUrl := generateAIImage (selectedPromptOf prompts' pick),
              phase := Phase.captionSubmission } }
  else
    { room with gameState := { room.gameState with prompts := prompts' } }

/-- submitPrompt handler. -/
def submitPrompt (rooms : List (String × Room)) (roomCode socketId promptText : String)
    (pick : Nat) : List (String × Room) :=
  match objGet rooms roomCode with
  | some room => objSet rooms roomCode (submitPromptRoom socketId promptText pick room)
  | none => rooms

/-- Effect of submitCaption on the found room: push the caption entry, then,
when the caption count equals the player count, move to voting. -/
def submitCaptionRoom (socketId captionText : String) (room : Room) : Room :=
  let captions' := room.gameState.captions ++ [(socketId, captionText)]
  if captions'.length = room.players.length then
    { room with
        gameState :=
          { room.gameState with captions := captions', phase := Phase.voting } }
  else
    { room with gameState := { room.gameState with captions := captions' } }

/-- submitCaption handler. -/
def submitCaption (rooms : List (String × Room)) (roomCode socketId captionText : String) :
    List (String × Room) :=
  match objGet rooms roomCode with
  | some room => objSet rooms roomCode (submitCaptionRoom socketId captionText room)
  | none => rooms

/-- Observable outcome of the getGameState handler: either the callback is
invoked with the game state and the players, or nothing happens at all. -/
inductive GetStateResult where
  | reply (state : GameState) (players : List Player)
  | silent
deriving DecidableEq

/-- getGameState handler: the source only has the found branch, so an
absent code produces no acknowledgment. -/
def getGameState (rooms : List (String × Room)) (roomCode : String) : GetStateResult :=
  match objGet rooms roomCode with
  | some room => GetStateResult.reply room.gameState room.players
  | none => GetStateResult.silent

/-- One step of the vote tally loop: voteCounts[vote] = (voteCounts[vote] || 0) + 1. -/
def tallyStep (acc : List (String × Nat)) (kv : String × String) : List (String × Nat) :=
  objSet acc kv.2 ((objGet acc kv.2).getD 0 + 1)

/-- The vote tally: counts per voted caption id, over Object.values(votes)
in insertion order. -/
def tallyVotes (votes : List (String × String)) : List (String × Nat) :=
  votes.foldl tallyStep []

/-- Math.max over Object.values(voteCounts); the fold base 0 agrees with
the JavaScript maximum whenever the tally is nonempty. -/
def maxVotes (voteCounts : List (String × Nat)) : Nat :=
  (objValues voteCounts).foldl max 0

/-- Object.keys(voteCounts).filter(key to voteCounts[key] === maxVotes). -/
def winners (voteCounts : List (String × Nat)) : List String :=
  (objKeys voteCounts).filter (fun k => decide (objGet voteCounts k = some (maxVotes voteCounts)))

/-- winners.forEach: room.scores[winnerId] += 1 for each winner in order. -/
def updateScores (ws : List String) (scores : List (String × JsNum)) :
    List (String × JsNum) :=
  ws.foldl (fun sc w => objSet sc w (jsInc (objGet sc w))) scores

/-- Effect of submitVote on the found room: record the vote (overwriting a
revote), then, when the number of voters equals the player count, tally,
award each winner one point, and move to result. The delayed round reset
is a separate timer effect and is not part of this handler step. -/
def submitVoteRoom (socketId votedCaptionId : String) (room : Room) : Room :=
  let votes' := objSet room.gameState.votes socketId votedCaptionId
  if votes'.length = room.players.length then
    { room with
        scores := updateScores (winners (tallyVotes votes')) room.scores,
        gameState :=
          { room.gameState with votes := votes', phase := Phase.result } }
  else
    { room with gameState := { room.gameState with votes := votes' } }

/-- submitVote handler. -/
def submitVote (rooms : List (String × Room)) (roomCode socketId votedCaptionId : String) :
    List (String × Room) :=
  match objGet rooms roomCode with
  | some room => objSet rooms roomCode (submitVoteRoom socketId votedCaptionId room)
  | none => rooms

/-- Effect of a disconnect on one room: filter the player out, delete the
score entry, and when the departing connection was the host and players
remain, promote the first remaining player. -/
def disconnectRoom (socketId : String) (room : Room) : Room :=
  let players' := room.players.filter (fun p => decide (p.id ≠ socketId))
  let host' :=
    if room.host = socketId then
      match players' with
      | p :: _ => p.id
      | [] => room.host
    else room.host
  { room with
      players := players',
      host := host',
      scores := objDelete room.scores socketId }

/-- disconnect handler: updates every room and deletes those left with no
players. -/
def disconnect (rooms : List (String × Room)) (socketId : String) :
    List (String × Room) :=
  (rooms.map (fun cr => (cr.1, disconnectRoom socketId cr.2))).filter
    (fun cr => decide (cr.2.players.length ≠ 0))

/-- A score value that is a nonnegative integer (in particular, not NaN). -/
def isNonnegInt : JsNum → Bool
  | JsNum.int n => decide (0 ≤ n)
  | JsNum.nan => false

/-- The scores invariant of the spec: the score keys are exactly the ids of
the current players, and every stored value is an integer at least 0. -/
def scoresInv (room : Room) : Prop :=
  (∀ k ∈ objKeys room.scores, k ∈ room.players.map Player.id)
  ∧ (∀ k ∈ room.players.map Player.id, k ∈ objKeys room.scores)
  ∧ (∀ p ∈ room.scores, isNonnegInt p.2 = true)

instance (room : Room) : Decidable (scoresInv room) := by
  unfold scoresInv
  infer_instance

/-- A one-player room in the voting phase with no votes yet, as reached by
createGame, joinGame, startGame, submitPrompt and submitCaption for the
single connection A. -/
def soloRoom : Room :=
  { host := "A",
    players := [{ id := "A", name := "Alice" }],
    gameState :=
      { phase := Phase.voting,
        round := 1,
        prompts := [("A", "p")],
        imageUrl := generateAIImage "p",
        captions := [("A", "c")],
        votes := [] },
    scores := [("A", JsNum.int 0)] }

/-- The room obtained from soloRoom after its one player votes for the id
G, which belongs to no player of the room. -/
def ghostScoresRoom : Room :=
  submitVoteRoom "A" "G" soloRoom

/-- The room left by createGame for connection A followed by joinGame of
connection B: the creator A is the host but not a player. -/
def joinedOnlyRoom : Room :=
  { host := "A",
    players := [{ id := "B", name := "Bob" }],
    gameState :=
      { phase := Phase.waiting,
        round := 1,
        prompts := [],
        imageUrl := "",
        captions := [],
        votes := [] },
    scores := [("B", JsNum.int 0)] }

/-- A two-player room in the promptSubmission phase. -/
def duoRoom : Room :=
  { host := "A",
    players := [{ id := "A", name := "Ann" }, { id := "B", name := "Ben" }],
    gameState :=
      { phase := Phase.promptSubmission,
        round := 1,
        prompts := [],
        imageUrl := "",
        captions := [],
        votes := [] },
    scores := [("A", JsNum.int 0), ("B", JsNum.int 0)] }

/-- A three-player room in the promptSubmission phase with no prompts. -/
def trioRoom : Room :=
  { host := "A",
    players :=
      [{ id := "A", name := "Ann" }, { id := "B", name := "Ben" },
       { id := "C", name := "Cal" }],
    gameState :=
      { phase := Phase.promptSubmission,
        round := 1,
        prompts := [],
        imageUrl := "",
        captions := [],
        votes := [] },
    scores := [("A", JsNum.int 0), ("B", JsNum.int 0), ("C", JsNum.int 0)] }

/-- A five-player room in the voting phase in which four votes are already
recorded: two for A, two for B. The fifth vote, for C, yields the tally of
the spec example: A two, B two, C one. -/
def fiveRoom : Room :=
  { host := "A",
    players :=
      [{ id := "A", name := "Ann" }, { id := "B", name := "Ben" },
       { id := "C", name := "Cal" }, { id := "D", name := "Dot" },
       { id := "E", name := "Eve" }],
    gameState :=
      { phase := Phase.voting,
        round := 1,
        prompts := [],
        imageUrl := "",
        captions := [],
        votes := [("A", "A"), ("B", "A"), ("C", "B"), ("D", "B")] },
    scores :=
      [("A", JsNum.int 0), ("B", JsNum.int 0), ("C", JsNum.int 0),
       ("D", JsNum.int 0), ("E", JsNum.int 0)] }

/-! Lemmas about the JavaScript object model. -/

theorem objKeys_nil {α : Type} : objKeys ([] : List (String × α)) = [] := rfl

theorem objKeys_cons {α : Type} (a : String) (w : α) (tl : List (String × α)) :
    objKeys ((a, w) :: tl) = a :: objKeys tl := rfl

theorem objValues_cons {α : Type} (a : String) (w : α) (tl : List (String × α)) :
    objValues ((a, w) :: tl) = w :: objValues tl := rfl

theorem objGet_objSet_self {α : Type} (m : List (String × α)) (k : String) (v : α) :
    objGet (objSet m k v) k = some v := by
  induction m with
  | nil => simp [objSet, objGet]
  | cons hd tl ih =>
    obtain ⟨a, w⟩ := hd
    by_cases h : a = k
    · simp [objSet, objGet, h]
    · simp [objSet, objGet, h, ih]

theorem objGet_objSet_ne {α : Type} (m : List (String × α)) (k k' : String) (v : α)
    (h : k ≠ k') : objGet (objSet m k v) k' = objGet m k' := by
  induction m with
  | nil => simp [objSet, objGet, h]
  | cons hd tl ih =>
    obtain ⟨a, w⟩ := hd
    by_cases ha : a = k
    · subst ha
      simp [objSet, objGet, h]
    · simp only [objSet, if_neg ha]
      by_cases hk' : a = k'
      · simp [objGet, hk']
      · simp [objGet, hk', ih]

theorem mem_objKeys_objSet {α : Type} (m : List (String × α)) (k : String) (v : α)
    (k' : String) : k' ∈ objKeys (objSet m k v) ↔ k' ∈ objKeys m ∨ k' = k := by
  induction m with
  | nil => simp [objSet, objKeys]
  | cons hd tl ih =>
    obtain ⟨a, w⟩ := hd
    by_cases ha : a = k
    · subst ha
      simp [objSet, objKeys_cons]
      tauto
    · rw [objSet, if_neg ha, objKeys_cons, objKeys_cons, List.mem_cons, List.mem_cons, ih]
      tauto

theorem objGet_eq_none_iff {α : Type} (m : List (String × α)) (k : String) :
    objGet m k = none ↔ k ∉ objKeys m := by
  induction m with
  | nil => simp [objGet, objKeys]
  | cons hd tl ih =>
    obtain ⟨a, w⟩ := hd
    by_cases ha : a = k
    · subst ha
      simp [objGet, objKeys_cons]
    · rw [objGet, if_neg ha, objKeys_cons, List.mem_cons, ih]
      constructor
      · rintro h (h' | h')
        · exact ha h'.symm
        · exact h h'
      · intro h h'
        exact h (Or.inr h')

theorem objGet_mem {α : Type} (m : List (String × α)) (k : String) (v : α)
    (h : objGet m k = some v) : (k, v) ∈ m := by
  induction m with
  | nil => simp [objGet] at h
  | cons hd tl ih =>
    obtain ⟨a, w⟩ := hd
    by_cases ha : a = k
    · subst ha
      simp [objGet] at h
      subst h
      exact List.mem_cons_self _ _
    · rw [objGet, if_neg ha] at h
      exact List.mem_cons_of_mem _ (ih h)

theorem mem_objKeys_of_objGet {α : Type} (m : List (String × α)) (k : String) (v : α)
    (h : objGet m k = some v) : k ∈ objKeys m := by
  have := objGet_mem m k v h
  exact List.mem_map_of_mem Prod.fst this

theorem exists_objGet_of_mem_objKeys {α : Type} (m : List (String × α)) (k : String)
    (h : k ∈ objKeys m) : ∃ v, objGet m k = some v := by
  cases hv : objGet m k with
  | none => exact absurd h ((objGet_eq_none_iff m k).mp hv)
  | some v => exact ⟨v, rfl⟩

theorem mem_objSet_elim {α : Type} (m : List (String × α)) (k : String) (v : α)
    (p : String × α) (h : p ∈ objSet m k v) : p ∈ m ∨ p = (k, v) := by
  induction m with
  | nil =>
    simp [objSet] at h
    exact Or.inr h
  | cons hd tl ih =>
    obtain ⟨a, w⟩ := hd
    by_cases ha : a = k
    · subst ha
      rw [objSet, if_pos rfl, List.mem_cons] at h
      rcases h with h | h
      · exact Or.inr h
      · exact Or.inl (List.mem_cons_of_mem _ h)
    · rw [objSet, if_neg ha, List.mem_cons] at h
      rcases h with h | h
      · exact Or.inl (h ▸ List.mem_cons_self _ _)
      · rcases ih h with h' | h'
        · exact Or.inl (List.mem_cons_of_mem _ h')
        · exact Or.inr h'

theorem objSet_of_objGet_none {α : Type} (m : List (String × α)) (k : String) (v : α)
    (h : objGet m k = none) : objSet m k v = m ++ [(k, v)] := by
  induction m with
  | nil => simp [objSet]
  | cons hd tl ih =>
    obtain ⟨a, w⟩ := hd
    by_cases ha : a = k
    · subst ha
      simp [objGet] at h
    · rw [objGet, if_neg ha] at h
      simp [objSet, if_neg ha, ih h]

theorem objKeys_objSet_of_mem {α : Type} (m : List (String × α)) (k : String) (v : α)
    (h : k ∈ objKeys m) : objKeys (objSet m k v) = objKeys m := by
  induction m with
  | nil => simp [objKeys] at h
  | cons hd tl ih =>
    obtain ⟨a, w⟩ := hd
    by_cases ha : a = k
    · subst ha
      simp [objSet, objKeys_cons]
    · rw [objKeys_cons, List.mem_cons] at h
      rcases h with h | h
      · exact absurd h.symm ha
      · rw [objSet, if_neg ha, objKeys_cons, objKeys_cons, ih h]

theorem nodup_objKeys_objSet {α : Type} (m : List (String × α)) (k : String) (v : α)
    (h : (objKeys m).Nodup) : (objKeys (objSet m k v)).Nodup := by
  by_cases hk : k ∈ objKeys m
  · rw [objKeys_objSet_of_mem m k v hk]
    exact h
  · have hnone : objGet m k = none := (objGet_eq_none_iff m k).mpr hk
    rw [objSet_of_objGet_none m k v hnone]
    have : objKeys (m ++ [(k, v)]) = objKeys m ++ [k] := by
      simp [objKeys]
    rw [this, List.nodup_append]
    exact ⟨h, List.nodup_singleton k, by simpa using hk⟩

theorem mem_objKeys_objDelete {α : Type} (m : List (String × α)) (k k' : String) :
    k' ∈ objKeys (objDelete m k) ↔ k' ∈ objKeys m ∧ k' ≠ k := by
  simp only [objKeys, objDelete, List.mem_map, List.mem_filter, decide_eq_true_eq]
  constructor
  · rintro ⟨p, ⟨hp, hne⟩, rfl⟩
    exact ⟨⟨p, hp, rfl⟩, hne⟩
  · rintro ⟨⟨p, hp, rfl⟩, hne⟩
    exact ⟨p, ⟨hp, hne⟩, rfl⟩

theorem mem_of_mem_objDelete {α : Type} (m : List (String × α)) (k : String)
    (p : String × α) (h : p ∈ objDelete m k) : p ∈ m :=
  List.mem_of_mem_filter h

theorem objDelete_of_not_mem {α : Type} (m : List (String × α)) (k : String)
    (h : k ∉ objKeys m) : objDelete m k = m := by
  apply List.filter_eq_self.mpr
  intro p hp
  simp only [decide_eq_true_eq]
  intro hpk
  exact h (hpk ▸ List.mem_map_of_mem Prod.fst hp)

theorem objGet_map_value {α β : Type} (m : List (String × α)) (g : α → β) (k : String) :
    objGet (m.map (fun cr => (cr.1, g cr.2))) k = (objGet m k).map g := by
  induction m with
  | nil => rfl
  | cons hd tl ih =>
    obtain ⟨a, w⟩ := hd
    by_cases h : a = k
    · simp [objGet, h]
    · simp [objGet, h, ih]

theorem objKeys_map_value {α β : Type} (m : List (String × α)) (g : α → β) :
    objKeys (m.map (fun cr => (cr.1, g cr.2))) = objKeys m := by
  induction m with
  | nil => rfl
  | cons hd tl ih =>
    obtain ⟨a, w⟩ := hd
    simp only [List.map_cons]
    rw [objKeys_cons, objKeys_cons, ih]

theorem objGet_filter_none {α : Type} (m : List (String × α)) (q : String × α → Bool)
    (k : String) (h : objGet m k = none) : objGet (m.filter q) k = none := by
  induction m with
  | nil => simp [objGet]
  | cons hd tl ih =>
    obtain ⟨a, w⟩ := hd
    by_cases ha : a = k
    · subst ha
      simp [objGet] at h
    · rw [objGet, if_neg ha] at h
      rw [List.filter_cons]
      by_cases hq : q (a, w) = true
      · rw [if_pos hq, objGet, if_neg ha]
        exact ih h
      · rw [if_neg hq]
        exact ih h

theorem objGet_filter {α : Type} (m : List (String × α)) (q : String × α → Bool)
    (k : String) (v : α) (hnd : (objKeys m).Nodup) (h : objGet m k = some v) :
    objGet (m.filter q) k = if q (k, v) then some v else none := by
  induction m with
  | nil => simp [objGet] at h
  | cons hd tl ih =>
    obtain ⟨a, w⟩ := hd
    rw [objKeys_cons, List.nodup_cons] at hnd
    by_cases ha : a = k
    · subst ha
      rw [objGet, if_pos rfl, Option.some_inj] at h
      subst h
      rw [List.filter_cons]
      by_cases hq : q (a, w) = true
      · rw [if_pos hq, if_pos hq, objGet, if_pos rfl]
      · rw [if_neg hq, if_neg hq]
        exact objGet_filter_none tl q a ((objGet_eq_none_iff tl a).mpr hnd.1)
    · rw [objGet, if_neg ha] at h
      rw [List.filter_cons]
      by_cases hq : q (a, w) = true
      · rw [if_pos hq, objGet, if_neg ha]
        exact ih hnd.2 h
      · rw [if_neg hq]
        exact ih hnd.2 h

theorem le_foldl_max (l : List Nat) (a : Nat) : a ≤ l.foldl max a := by
  induction l generalizing a with
  | nil => exact le_refl a
  | cons x xs ih => exact le_trans (le_max_left a x) (ih (max a x))

theorem mem_le_foldl_max (l : List Nat) : ∀ (a x : Nat), x ∈ l → x ≤ l.foldl max a := by
  induction l with
  | nil =>
    intro a x hx
    cases hx
  | cons y ys ih =>
    intro a x hx
    rw [List.foldl_cons]
    rcases List.mem_cons.mp hx with h | h
    · subst h
      exact le_trans (le_max_right a x) (le_foldl_max ys (max a x))
    · exact ih (max a y) x h

theorem tally_foldl (vs : List (String × String)) :
    ∀ (acc : List (String × Nat)) (t : String),
      objGet (vs.foldl tallyStep acc) t =
        if (vs.map Prod.snd).count t = 0 then objGet acc t
        else some ((objGet acc t).getD 0 + (vs.map Prod.snd).count t) := by
  induction vs with
  | nil =>
    intro acc t
    simp
  | cons hd tl ih =>
    intro acc t
    obtain ⟨a, b⟩ := hd
    rw [List.foldl_cons, ih]
    by_cases hb : b = t
    · subst hb
      have hstep : objGet (tallyStep acc (a, b)) b = some ((objGet acc b).getD 0 + 1) := by
        rw [tallyStep]
        exact objGet_objSet_self acc b _
      rw [List.map_cons, List.count_cons_self]
      by_cases hc : (tl.map Prod.snd).count b = 0
      · rw [hc]
        simp only [if_pos rfl, Nat.add_eq, if_neg (Nat.succ_ne_zero 0)]
        rw [hstep]
        simp
      · rw [if_neg hc, if_neg (by omega)]
        rw [hstep]
        simp only [Option.getD_some, Option.some_inj]
        omega
    · have hstep : objGet (tallyStep acc (a, b)) t = objGet acc t := by
        rw [tallyStep]
        exact objGet_objSet_ne acc b t _ hb
      rw [List.map_cons, List.count_cons_of_ne (fun h => hb h.symm), hstep]

theorem tallyVotes_count (vs : List (String × String)) (t : String) :
    objGet (tallyVotes vs) t =
      if (vs.map Prod.snd).count t = 0 then none
      else some ((vs.map Prod.snd).count t) := by
  rw [tallyVotes, tally_foldl vs [] t]
  simp [objGet]

theorem tally_foldl_nodup (vs : List (String × String)) :
    ∀ acc : List (String × Nat),
      (objKeys acc).Nodup → (objKeys (vs.foldl tallyStep acc)).Nodup := by
  induction vs with
  | nil =>
    intro acc h
    exact h
  | cons hd tl ih =>
    intro acc h
    rw [List.foldl_cons]
    exact ih _ (nodup_objKeys_objSet acc hd.2 _ h)

theorem tallyVotes_nodup (vs : List (String × String)) :
    (objKeys (tallyVotes vs)).Nodup :=
  tally_foldl_nodup vs [] (by simp [objKeys])

theorem mem_winners (c : List (String × Nat)) (t : String) :
    t ∈ winners c ↔ objGet c t = some (maxVotes c) := by
  rw [winners, List.mem_filter]
  simp only [decide_eq_true_eq]
  constructor
  · exact fun h => h.2
  · intro h
    exact ⟨mem_objKeys_of_objGet c t _ h, h⟩

theorem winners_nodup (c : List (String × Nat)) (h : (objKeys c).Nodup) :
    (winners c).Nodup :=
  h.filter _

theorem objGet_le_maxVotes (c : List (String × Nat)) (t : String) (n : Nat)
    (h : objGet c t = some n) : n ≤ maxVotes c := by
  have hmem : (t, n) ∈ c := objGet_mem c t n h
  exact mem_le_foldl_max (objValues c) 0 n (List.mem_map_of_mem Prod.snd hmem)

theorem updateScores_cons (x : String) (xs : List String) (sc : List (String × JsNum)) :
    updateScores (x :: xs) sc = updateScores xs (objSet sc x (jsInc (objGet sc x))) := rfl

theorem updateScores_objGet_not_mem (ws : List String) :
    ∀ (sc : List (String × JsNum)) (w : String), w ∉ ws →
      objGet (updateScores ws sc) w = objGet sc w := by
  induction ws with
  | nil =>
    intro sc w _
    rfl
  | cons x xs ih =>
    intro sc w hw
    rw [updateScores_cons]
    have hne : x ≠ w := fun h => hw (h ▸ List.mem_cons_self x xs)
    rw [ih _ w (fun h => hw (List.mem_cons_of_mem x h))]
    exact objGet_objSet_ne sc x w _ hne

theorem updateScores_objGet_mem (ws : List String) :
    ∀ (sc : List (String × JsNum)) (w : String), ws.Nodup → w ∈ ws →
      objGet (updateScores ws sc) w = some (jsInc (objGet sc w)) := by
  induction ws with
  | nil =>
    intro sc w _ hw
    cases hw
  | cons x xs ih =>
    intro sc w hnd hw
    rw [List.nodup_cons] at hnd
    rw [updateScores_cons]
    rcases List.mem_cons.mp hw with h | h
    · subst h
      rw [updateScores_objGet_not_mem xs _ w hnd.1]
      exact objGet_objSet_self sc w _
    · have hxw : x ≠ w := fun he => hnd.1 (he ▸ h)
      rw [ih _ w hnd.2 h, objGet_objSet_ne sc x w _ hxw]

theorem updateScores_inv (ws : List String) :
    ∀ sc : List (String × JsNum),
      (∀ w ∈ ws, w ∈ objKeys sc) →
      (∀ p ∈ sc, isNonnegInt p.2 = true) →
      (∀ k, k ∈ objKeys (updateScores ws sc) ↔ k ∈ objKeys sc)
      ∧ (∀ p ∈ updateScores ws sc, isNonnegInt p.2 = true) := by
  induction ws with
  | nil =>
    intro sc _ hv
    exact ⟨fun k => Iff.rfl, hv⟩
  | cons x xs ih =>
    intro sc hws hv
    have hx : x ∈ objKeys sc := hws x (List.mem_cons_self x xs)
    obtain ⟨v, hvx⟩ := exists_objGet_of_mem_objKeys sc x hx
    have hvnn : isNonnegInt v = true := hv (x, v) (objGet_mem sc x v hvx)
    have hjs : isNonnegInt (jsInc (objGet sc x)) = true := by
      rw [hvx]
      cases v with
      | int n =>
        simp only [isNonnegInt, decide_eq_true_eq] at hvnn
        simp only [jsInc, isNonnegInt, decide_eq_true_eq]
        omega
      | nan => simp [isNonnegInt] at hvnn
    have hkeys : objKeys (objSet sc x (jsInc (objGet sc x))) = objKeys sc :=
      objKeys_objSet_of_mem sc x _ hx
    have hvals : ∀ p ∈ objSet sc x (jsInc (objGet sc x)), isNonnegInt p.2 = true := by
      intro p hp
      rcases mem_objSet_elim sc x _ p hp with h | h
      · exact hv p h
      · rw [h]
        exact hjs
    have hws' : ∀ w ∈ xs, w ∈ objKeys (objSet sc x (jsInc (objGet sc x))) := by
      intro w hw
      rw [hkeys]
      exact hws w (List.mem_cons_of_mem x hw)
    have hrec := ih (objSet sc x (jsInc (objGet sc x))) hws' hvals
    rw [updateScores_cons]
    refine ⟨fun k => ?_, hrec.2⟩
    rw [hrec.1 k, hkeys]

/-! Lemmas about the handler steps. -/

theorem submitPromptRoom_fire (room : Room) (sid txt : String) (pick : Nat)
    (h : (room.gameState.prompts ++ [(sid, txt)]).length = room.players.length) :
    submitPromptRoom sid txt pick room =
      { room with
          gameState :=
            { room.gameState with
                prompts := room.gameState.prompts ++ [(sid, txt)],
                imageUrl :=
                  generateAIImage
                    (selectedPromptOf (room.gameState.prompts ++ [(sid, txt)]) pick),
                phase := Phase.captionSubmission } } := by
  simp only [submitPromptRoom]
  rw [if_pos h]

theorem submitPromptRoom_nofire (room : Room) (sid txt : String) (pick : Nat)
    (h : ¬ (room.gameState.prompts ++ [(sid, txt)]).length = room.players.length) :
    submitPromptRoom sid txt pick room =
      { room with
          gameState :=
            { room.gameState with prompts := room.gameState.prompts ++ [(sid, txt)] } } := by
  simp only [submitPromptRoom]
  rw [if_neg h]

theorem submitCaptionRoom_fire (room : Room) (sid cap : String)
    (h : (room.gameState.captions ++ [(sid, cap)]).length = room.players.length) :
    submitCaptionRoom sid cap room =
      { room with
          gameState :=
            { room.gameState with
                captions := room.gameState.captions ++ [(sid, cap)],
                phase := Phase.voting } } := by
  simp only [submitCaptionRoom]
  rw [if_pos h]

theorem submitCaptionRoom_nofire (room : Room) (sid cap : String)
    (h : ¬ (room.gameState.captions ++ [(sid, cap)]).length = room.players.length) :
    submitCaptionRoom sid cap room =
      { room with
          gameState :=
            { room.gameState with captions := room.gameState.captions ++ [(sid, cap)] } } := by
  simp only [submitCaptionRoom]
  rw [if_neg h]

theorem submitVoteRoom_fire (room : Room) (sid tgt : String)
    (h : (objSet room.gameState.votes sid tgt).length = room.players.length) :
    submitVoteRoom sid tgt room =
      { room with
          scores :=
            updateScores (winners (tallyVotes (objSet room.gameState.votes sid tgt)))
              room.scores,
          gameState :=
            { room.gameState with
                votes := objSet room.gameState.votes sid tgt,
                phase := Phase.result } } := by
  simp only [submitVoteRoom]
  rw [if_pos h]

theorem submitVoteRoom_nofire (room : Room) (sid tgt : String)
    (h : ¬ (objSet room.gameState.votes sid tgt).length = room.players.length) :
    submitVoteRoom sid tgt room =
      { room with
          gameState :=
            { room.gameState with votes := objSet room.gameState.votes sid tgt } } := by
  simp only [submitVoteRoom]
  rw [if_neg h]

theorem disconnectRoom_players (sid : String) (room : Room) :
    (disconnectRoom sid room).players =
      room.players.filter (fun p => decide (p.id ≠ sid)) := rfl

theorem disconnectRoom_scores (sid : String) (room : Room) :
    (disconnectRoom sid room).scores = objDelete room.scores sid := rfl

theorem disconnectRoom_gameState (sid : String) (room : Room) :
    (disconnectRoom sid room).gameState = room.gameState := rfl

theorem disconnectRoom_host (sid : String) (room : Room) :
    (disconnectRoom sid room).host =
      if room.host = sid then
        match room.players.filter (fun p => decide (p.id ≠ sid)) with
        | p :: _ => p.id
        | [] => room.host
      else room.host := rfl

theorem mem_map_id_filter (players : List Player) (sid k : String) :
    k ∈ (players.filter (fun p => decide (p.id ≠ sid))).map Player.id ↔
      k ∈ players.map Player.id ∧ k ≠ sid := by
  simp only [List.mem_map, List.mem_filter, decide_eq_true_eq]
  constructor
  · rintro ⟨p, ⟨hp, hne⟩, rfl⟩
    exact ⟨⟨p, hp, rfl⟩, hne⟩
  · rintro ⟨⟨p, hp, rfl⟩, hne⟩
    exact ⟨p, ⟨hp, hne⟩, rfl⟩

/-! Claim theorems. -/

/-- C1, counterexample: the claim states that the phase never advances out
of promptSubmission while fewer prompts than players are collected. In a
one-player room in the promptSubmission phase with zero prompts, a caption
submission fires the caption gate and moves the phase directly to voting,
so a transition out of promptSubmission happens although the prompt count
zero is below the player count one. -/
theorem C1_counterexample :
    (objGet (startGame ((joinGame ((createGame [] "R1" "A").1) "R1" "A" "Alice").1) "R1" "A")
        "R1").map (fun r => (r.gameState.phase, r.gameState.prompts.length, r.players.length))
      = some (Phase.promptSubmission, 0, 1)
  ∧ (objGet (submitCaption
        (startGame ((joinGame ((createGame [] "R1" "A").1) "R1" "A" "Alice").1) "R1" "A")
        "R1" "A" "c") "R1").map (fun r => r.gameState.phase)
      = some Phase.voting := by
  decide

/-- C1, amended: each submission handler applies a strict equality gate,
re-evaluated at the moment of that submission: submitPrompt moves the
phase to captionSubmission exactly when the new prompt count equals the
player count, submitCaption moves it to voting exactly when the new
caption count equals the player count, and submitVote moves it to result
exactly when the number of recorded voters equals the player count; in
every other case that handler leaves the phase unchanged. A transition
out of a phase caused by a submission of a different kind remains
possible. -/
theorem C1_gate_iff (room : Room) (sid txt cap tgt : String) (pick : Nat) :
    ((submitPromptRoom sid txt pick room).gameState.phase =
      if room.gameState.prompts.length + 1 = room.players.length then Phase.captionSubmission
      else room.gameState.phase)
  ∧ ((submitCaptionRoom sid cap room).gameState.phase =
      if room.gameState.captions.length + 1 = room.players.length then Phase.voting
      else room.gameState.phase)
  ∧ ((submitVoteRoom sid tgt room).gameState.phase =
      if (objSet room.gameState.votes sid tgt).length = room.players.length then Phase.result
      else room.gameState.phase) := by
  refine ⟨?_, ?_, ?_⟩
  · by_cases h : (room.gameState.prompts ++ [(sid, txt)]).length = room.players.length
    · rw [submitPromptRoom_fire room sid txt pick h]
      rw [if_pos (by simpa using h)]
    · rw [submitPromptRoom_nofire room sid txt pick h]
      rw [if_neg (by simpa using h)]
  · by_cases h : (room.gameState.captions ++ [(sid, cap)]).length = room.players.length
    · rw [submitCaptionRoom_fire room sid cap h]
      rw [if_pos (by simpa using h)]
    · rw [submitCaptionRoom_nofire room sid cap h]
      rw [if_neg (by simpa using h)]
  · by_cases h : (objSet room.gameState.votes sid tgt).length = room.players.length
    · rw [submitVoteRoom_fire room sid tgt h, if_pos h]
    · rw [submitVoteRoom_nofire room sid tgt h, if_neg h]

/-- C4, counterexample: the claim states that StartGame changes the room
only when the requester is the host and the phase is waiting. In a room in
the voting phase, a startGame by the host still rewrites the phase to
promptSubmission, so the room changes although the phase was not
waiting. -/
theorem C4_counterexample :
    soloRoom.gameState.phase = Phase.voting
  ∧ startGame [("R1", soloRoom)] "R1" "A" ≠ [("R1", soloRoom)]
  ∧ (objGet (startGame [("R1", soloRoom)] "R1" "A") "R1").map (fun r => r.gameState.phase)
      = some Phase.promptSubmission := by
  decide

/-- C4, amended: startGame sets the phase of the addressed room to
promptSubmission whenever the requesting connection is the current host,
regardless of the current phase; for a non-host requester or an absent
room code the registry is returned unchanged and no error is raised. -/
theorem C4_host_only (rooms : List (String × Room)) (code sid : String) :
    (∀ room, objGet rooms code = some room → sid = room.host →
      startGame rooms code sid =
        objSet rooms code
          { room with gameState := { room.gameState with phase := Phase.promptSubmission } })
  ∧ (∀ room, objGet rooms code = some room → sid ≠ room.host →
      startGame rooms code sid = rooms)
  ∧ (objGet rooms code = none → startGame rooms code sid = rooms) := by
  refine ⟨?_, ?_, ?_⟩
  · intro room h hh
    simp only [startGame, h]
    rw [if_pos hh]
    rfl
  · intro room h hh
    simp only [startGame, h]
    rw [if_neg hh]
  · intro h
    simp only [startGame, h]

/-- C4 witness: in a concrete registry the host moves the room out of the
voting phase, and a non-host request leaves the registry unchanged. -/
theorem C4_host_only_witness :
    objGet [("R1", soloRoom)] "R1" = some soloRoom
  ∧ startGame [("R1", soloRoom)] "R1" "A" =
      objSet [("R1", soloRoom)] "R1"
        { soloRoom with gameState := { soloRoom.gameState with phase := Phase.promptSubmission } }
  ∧ startGame [("R1", soloRoom)] "R1" "B" = [("R1", soloRoom)] :=
  ⟨by decide,
   (C4_host_only [("R1", soloRoom)] "R1" "A").1 soloRoom (by decide) (by decide),
   (C4_host_only [("R1", soloRoom)] "R1" "B").2.1 soloRoom (by decide) (by decide)⟩

/-- C5, counterexample: the claim states that SubmitPrompt upserts by
connectionId. In a three-player room, two prompt submissions by the same
connection produce two entries with that connectionId instead of
replacing the first. -/
theorem C5_counterexample :
    (submitPromptRoom "A" "p2" 0 (submitPromptRoom "A" "p1" 0 trioRoom)).gameState.prompts
      = [("A", "p1"), ("A", "p2")] := by
  decide

/-- C5, amended: submitPrompt appends the entry of the submitting
connection unconditionally; a resubmission by the same connection adds a
second entry rather than replacing the first. -/
theorem C5_append (room : Room) (sid txt : String) (pick : Nat) :
    (submitPromptRoom sid txt pick room).gameState.prompts =
      room.gameState.prompts ++ [(sid, txt)] := by
  by_cases h : (room.gameState.prompts ++ [(sid, txt)]).length = room.players.length
  · rw [submitPromptRoom_fire room sid txt pick h]
  · rw [submitPromptRoom_nofire room sid txt pick h]

/-- C8, counterexample: the claim states that a snapshot request for an
absent room code fails with a RoomNotFound result surfaced to the caller.
The handler only has a found branch, so for an absent code the callback is
never invoked and nothing is surfaced at all. -/
theorem C8_counterexample :
    objGet ([] : List (String × Room)) "AAAAA" = none
  ∧ getGameState [] "AAAAA" = GetStateResult.silent := by
  decide

/-- C8, amended: for a present code getGameState acknowledges with the
pair of the current game state and players; for an absent code it invokes
no callback at all, a silent no-op rather than a surfaced RoomNotFound
failure. -/
theorem C8_snapshot (rooms : List (String × Room)) (code : String) :
    (objGet rooms code = none → getGameState rooms code = GetStateResult.silent)
  ∧ (∀ room, objGet rooms code = some room →
      getGameState rooms code = GetStateResult.reply room.gameState room.players) := by
  constructor
  · intro h
    simp only [getGameState, h]
  · intro room h
    simp only [getGameState, h]

/-- C8 witness: concrete instances of both branches. -/
theorem C8_snapshot_witness :
    getGameState [] "AAAAA" = GetStateResult.silent
  ∧ getGameState [("R1", duoRoom)] "R1" = GetStateResult.reply duoRoom.gameState duoRoom.players :=
  ⟨(C8_snapshot [] "AAAAA").1 (by decide),
   (C8_snapshot [("R1", duoRoom)] "R1").2 duoRoom (by decide)⟩

/-- C9: none of the three submission handlers inspects the current phase:
for every starting phase the prompt and caption entries are appended and
the vote is stored, and the caption gate still applies, so captions
submitted while the phase is waiting move the room directly to voting
once their count reaches the player count. -/
theorem C9_no_phase_guard (room : Room) (p : Phase) (sid txt cap tgt : String) (pick : Nat) :
    ((submitPromptRoom sid txt pick
        { room with gameState := { room.gameState with phase := p } }).gameState.prompts
      = room.gameState.prompts ++ [(sid, txt)])
  ∧ ((submitCaptionRoom sid cap
        { room with gameState := { room.gameState with phase := p } }).gameState.captions
      = room.gameState.captions ++ [(sid, cap)])
  ∧ ((submitVoteRoom sid tgt
        { room with gameState := { room.gameState with phase := p } }).gameState.votes
      = objSet room.gameState.votes sid tgt)
  ∧ ((submitCaptionRoom sid cap
        { room with gameState := { room.gameState with phase := p } }).gameState.phase
      = if room.gameState.captions.length + 1 = room.players.length then Phase.voting else p) := by
  refine ⟨?_, ?_, ?_, ?_⟩
  · by_cases h : (room.gameState.prompts ++ [(sid, txt)]).length = room.players.length
    · rw [submitPromptRoom_fire
        { room with gameState := { room.gameState with phase := p } } sid txt pick h]
    · rw [submitPromptRoom_nofire
        { room with gameState := { room.gameState with phase := p } } sid txt pick h]
  · by_cases h : (room.gameState.captions ++ [(sid, cap)]).length = room.players.length
    · rw [submitCaptionRoom_fire
        { room with gameState := { room.gameState with phase := p } } sid cap h]
    · rw [submitCaptionRoom_nofire
        { room with gameState := { room.gameState with phase := p } } sid cap h]
  · by_cases h : (objSet room.gameState.votes sid tgt).length = room.players.length
    · rw [submitVoteRoom_fire
        { room with gameState := { room.gameState with phase := p } } sid tgt h]
    · rw [submitVoteRoom_nofire
        { room with gameState := { room.gameState with phase := p } } sid tgt h]
  · by_cases h : (room.gameState.captions ++ [(sid, cap)]).length = room.players.length
    · rw [submitCaptionRoom_fire
        { room with gameState := { room.gameState with phase := p } } sid cap h]
      rw [if_pos (by simpa using h)]
    · rw [submitCaptionRoom_nofire
        { room with gameState := { room.gameState with phase := p } } sid cap h]
      rw [if_neg (by simpa using h)]

/-- C2, counterexample: the claim states that each winner of the round has
its score incremented by exactly 1. In a one-player room the player votes
for the id G, which has no score entry; G is the unique winner, and its
score entry becomes NaN instead of a value one larger than before. -/
theorem C2_counterexample :
    winners (tallyVotes (objSet soloRoom.gameState.votes "A" "G")) = ["G"]
  ∧ objGet soloRoom.scores "G" = none
  ∧ objGet (submitVoteRoom "A" "G" soloRoom).scores "G" = some JsNum.nan := by
  decide

/-- C2, amended: when the vote count reaches the player count, the tally
maps every voted target to the number of votes it received, the winner
set is exactly the set of targets whose tally equals the maximum tally,
each winner that has an integer score entry has it incremented by exactly
1, each winner without a score entry gets a NaN entry instead, every
non-winner score entry is unchanged, and the phase becomes result. -/
theorem C2_tally_scores (room : Room) (sid tgt : String)
    (hGate : (objSet room.gameState.votes sid tgt).length = room.players.length) :
    (∀ t, objGet (tallyVotes (objSet room.gameState.votes sid tgt)) t =
        if ((objSet room.gameState.votes sid tgt).map Prod.snd).count t = 0 then none
        else some (((objSet room.gameState.votes sid tgt).map Prod.snd).count t))
  ∧ (∀ t, t ∈ winners (tallyVotes (objSet room.gameState.votes sid tgt)) ↔
        objGet (tallyVotes (objSet room.gameState.votes sid tgt)) t =
          some (maxVotes (tallyVotes (objSet room.gameState.votes sid tgt))))
  ∧ (∀ t n, objGet (tallyVotes (objSet room.gameState.votes sid tgt)) t = some n →
        n ≤ maxVotes (tallyVotes (objSet room.gameState.votes sid tgt)))
  ∧ (∀ w ∈ winners (tallyVotes (objSet room.gameState.votes sid tgt)), ∀ z : Int,
        objGet room.scores w = some (JsNum.int z) →
        objGet (submitVoteRoom sid tgt room).scores w = some (JsNum.int (z + 1)))
  ∧ (∀ w ∈ winners (tallyVotes (objSet room.gameState.votes sid tgt)),
        objGet room.scores w = none →
        objGet (submitVoteRoom sid tgt room).scores w = some JsNum.nan)
  ∧ (∀ t, t ∉ winners (tallyVotes (objSet room.gameState.votes sid tgt)) →
        objGet (submitVoteRoom sid tgt room).scores t = objGet room.scores t)
  ∧ (submitVoteRoom sid tgt room).gameState.phase = Phase.result := by
  have hscores : (submitVoteRoom sid tgt room).scores =
      updateScores (winners (tallyVotes (objSet room.gameState.votes sid tgt))) room.scores := by
    rw [submitVoteRoom_fire room sid tgt hGate]
  have hwnd : (winners (tallyVotes (objSet room.gameState.votes sid tgt))).Nodup :=
    winners_nodup _ (tallyVotes_nodup _)
  refine ⟨fun t => tallyVotes_count _ t, fun t => mem_winners _ t,
    fun t n hn => objGet_le_maxVotes _ t n hn, ?_, ?_, ?_, ?_⟩
  · intro w hw z hz
    rw [hscores, updateScores_objGet_mem _ room.scores w hwnd hw, hz]
    rfl
  · intro w hw hz
    rw [hscores, updateScores_objGet_mem _ room.scores w hwnd hw, hz]
    rfl
  · intro t ht
    rw [hscores]
    exact updateScores_objGet_not_mem _ room.scores t ht
  · rw [submitVoteRoom_fire room sid tgt hGate]

/-- C2 witness: the spec example. Five players, tallies A two, B two,
C one; the winners are A and B, A gains one point and the target C keeps
its score. -/
theorem C2_tally_scores_witness :
    (objSet fiveRoom.gameState.votes "E" "C").length = fiveRoom.players.length
  ∧ winners (tallyVotes (objSet fiveRoom.gameState.votes "E" "C")) = ["A", "B"]
  ∧ objGet (submitVoteRoom "E" "C" fiveRoom).scores "A" = some (JsNum.int (0 + 1))
  ∧ objGet (submitVoteRoom "E" "C" fiveRoom).scores "C" = objGet fiveRoom.scores "C" :=
  ⟨by decide, by decide,
   (C2_tally_scores fiveRoom "E" "C" (by decide)).2.2.2.1 "A" (by decide) 0 (by decide),
   (C2_tally_scores fiveRoom "E" "C" (by decide)).2.2.2.2.2.1 "C" (by decide)⟩

/-- C3, counterexample: the claim states that after every operation the
score keys equal the player ids and every score is a nonnegative integer.
Starting from a one-player room satisfying the invariant, a vote for the
non-player id G makes the gate fire and adds the score entry G with value
NaN, so the keys exceed the player ids and a value is not a nonnegative
integer. -/
theorem C3_counterexample :
    scoresInv soloRoom
  ∧ objKeys (submitVoteRoom "A" "G" soloRoom).scores = ["A", "G"]
  ∧ (submitVoteRoom "A" "G" soloRoom).players.map Player.id = ["A"]
  ∧ objGet (submitVoteRoom "A" "G" soloRoom).scores "G" = some JsNum.nan
  ∧ isNonnegInt JsNum.nan = false := by
  decide

/-- C3, amended: the invariant that the score keys equal the current
player ids and every score is a nonnegative integer holds for a freshly
created room and is preserved by join, startGame, submitPrompt,
submitCaption and disconnect; submitVote preserves it provided every
winner of a firing tally already has a score entry (a vote for an id
without a score entry breaks the invariant, as the counterexample
shows). -/
theorem C3_scores_inv_preserved (room : Room) (h : scoresInv room)
    (sid playerName txt cap tgt hostId : String) (pick : Nat) :
    scoresInv (initialRoom hostId)
  ∧ scoresInv (joinGameRoom sid playerName room)
  ∧ scoresInv (startGameRoom room)
  ∧ scoresInv (submitPromptRoom sid txt pick room)
  ∧ scoresInv (submitCaptionRoom sid cap room)
  ∧ scoresInv (disconnectRoom sid room)
  ∧ ((∀ w ∈ winners (tallyVotes (objSet room.gameState.votes sid tgt)),
        w ∈ objKeys room.scores) →
      scoresInv (submitVoteRoom sid tgt room)) := by
  unfold scoresInv at h ⊢
  obtain ⟨h1, h2, h3⟩ := h
  refine ⟨?_, ?_, ?_, ?_, ?_, ?_, ?_⟩
  · refine ⟨?_, ?_, ?_⟩
    · intro k hk
      simp [initialRoom, objKeys] at hk
    · intro k hk
      simp [initialRoom] at hk
    · intro q hq
      simp [initialRoom] at hq
  · simp only [joinGameRoom]
    refine ⟨?_, ?_, ?_⟩
    · intro k hk
      rw [mem_objKeys_objSet] at hk
      rw [List.map_append, List.mem_append]
      rcases hk with hk | hk
      · exact Or.inl (h1 k hk)
      · subst hk
        exact Or.inr (by simp)
    · intro k hk
      rw [List.map_append, List.mem_append] at hk
      rw [mem_objKeys_objSet]
      rcases hk with hk | hk
      · exact Or.inl (h2 k hk)
      · simp at hk
        exact Or.inr hk
    · intro q hq
      rcases mem_objSet_elim _ _ _ q hq with hq | hq
      · exact h3 q hq
      · rw [hq]
        rfl
  · exact ⟨h1, h2, h3⟩
  · by_cases hg : (room.gameState.prompts ++ [(sid, txt)]).length = room.players.length
    · rw [submitPromptRoom_fire room sid txt pick hg]
      exact ⟨h1, h2, h3⟩
    · rw [submitPromptRoom_nofire room sid txt pick hg]
      exact ⟨h1, h2, h3⟩
  · by_cases hg : (room.gameState.captions ++ [(sid, cap)]).length = room.players.length
    · rw [submitCaptionRoom_fire room sid cap hg]
      exact ⟨h1, h2, h3⟩
    · rw [submitCaptionRoom_nofire room sid cap hg]
      exact ⟨h1, h2, h3⟩
  · refine ⟨?_, ?_, ?_⟩
    · intro k hk
      rw [disconnectRoom_scores, mem_objKeys_objDelete] at hk
      rw [disconnectRoom_players, mem_map_id_filter]
      exact ⟨h1 k hk.1, hk.2⟩
    · intro k hk
      rw [disconnectRoom_players, mem_map_id_filter] at hk
      rw [disconnectRoom_scores, mem_objKeys_objDelete]
      exact ⟨h2 k hk.1, hk.2⟩
    · intro q hq
      rw [disconnectRoom_scores] at hq
      exact h3 q (mem_of_mem_objDelete _ _ q hq)
  · intro hw
    by_cases hg : (objSet room.gameState.votes sid tgt).length = room.players.length
    · rw [submitVoteRoom_fire room sid tgt hg]
      have hupd := updateScores_inv
        (winners (tallyVotes (objSet room.gameState.votes sid tgt))) room.scores hw h3
      refine ⟨?_, ?_, hupd.2⟩
      · intro k hk
        exact h1 k ((hupd.1 k).mp hk)
      · intro k hk
        exact (hupd.1 k).mpr (h2 k hk)
    · rw [submitVoteRoom_nofire room sid tgt hg]
      exact ⟨h1, h2, h3⟩

/-- C3 witness: the invariant holds for the one-player room, is kept by a
join, and is kept by a firing vote whose winner is a player. -/
theorem C3_scores_inv_preserved_witness :
    scoresInv soloRoom
  ∧ scoresInv (joinGameRoom "B" "Bob" soloRoom)
  ∧ scoresInv (submitVoteRoom "A" "A" soloRoom) :=
  ⟨by decide,
   (C3_scores_inv_preserved soloRoom (by decide) "B" "Bob" "t" "c" "A" "H" 0).2.1,
   (C3_scores_inv_preserved soloRoom (by decide) "A" "Bob" "t" "c" "A" "H" 0).2.2.2.2.2.2
     (by decide)⟩

/-- C6, counterexample: the claim states that the host is a member of the
players list whenever it is nonempty. After createGame by A and a join by
B, the players list is the single entry B while the host is still A, so
the host is absent from a nonempty players list. -/
theorem C6_counterexample :
    (joinGame ((createGame [] "R1" "A").1) "R1" "B" "Bob").1 = [("R1", joinedOnlyRoom)]
  ∧ joinedOnlyRoom.players ≠ []
  ∧ joinedOnlyRoom.host ∉ joinedOnlyRoom.players.map Player.id := by
  decide

/-- C6, amended: the disconnect step does reassign as claimed: when the
host disconnects and players remain, the new host is the first remaining
player; consequently, whenever the host was among the players before a
disconnect and players remain afterwards, the host is among the players
afterwards. The global invariant fails only because the creator is never
added to the players list, as the counterexample shows. -/
theorem C6_host_reassigned (room : Room) (sid : String) :
    (room.host = sid → (disconnectRoom sid room).players ≠ [] →
      ∃ q, (disconnectRoom sid room).players.head? = some q
        ∧ (disconnectRoom sid room).host = q.id)
  ∧ (room.host ∈ room.players.map Player.id → (disconnectRoom sid room).players ≠ [] →
      (disconnectRoom sid room).host ∈ (disconnectRoom sid room).players.map Player.id) := by
  constructor
  · intro hh hne
    rw [disconnectRoom_players] at hne ⊢
    rcases hfp : room.players.filter (fun p => decide (p.id ≠ sid)) with _ | ⟨q, rest⟩
    · exact absurd hfp hne
    · refine ⟨q, ?_, ?_⟩
      · rw [hfp]
        rfl
      · rw [disconnectRoom_host, if_pos hh, hfp]
  · intro hmem hne
    by_cases hh : room.host = sid
    · rw [disconnectRoom_players] at hne ⊢
      rcases hfp : room.players.filter (fun p => decide (p.id ≠ sid)) with _ | ⟨q, rest⟩
      · exact absurd hfp hne
      · rw [disconnectRoom_host, if_pos hh, hfp, List.map_cons]
        exact List.mem_cons_self _ _
    · rw [disconnectRoom_players, disconnectRoom_host, if_neg hh, mem_map_id_filter]
      exact ⟨hmem, hh⟩

/-- C6 witness: in a two-player room whose host A is a player, the
disconnect of A leaves the reassigned host among the remaining players. -/
theorem C6_host_reassigned_witness :
    duoRoom.host ∈ duoRoom.players.map Player.id
  ∧ (disconnectRoom "A" duoRoom).players ≠ []
  ∧ (disconnectRoom "A" duoRoom).host ∈ (disconnectRoom "A" duoRoom).players.map Player.id :=
  ⟨by decide, by decide,
   (C6_host_reassigned duoRoom "A").2 (by decide) (by decide)⟩

/-- C7, counterexample: the claim states that the returned code is
distinct from every live code and that no existing room is replaced. When
the random draw produces a code that is already live, createGame returns
that code and overwrites the existing room with a fresh one. -/
theorem C7_counterexample :
    (createGame [("R1", duoRoom)] "R1" "B").2 = "R1"
  ∧ (createGame [("R1", duoRoom)] "R1" "B").1 = [("R1", initialRoom "B")]
  ∧ duoRoom ≠ initialRoom "B" := by
  decide

/-- C7, amended: createGame stores a fresh room in waiting phase with
empty players and scores under the drawn code and returns that code;
rooms under every other code are untouched, and when the drawn code was
not live the registry is exactly extended by the new entry. Uniqueness of
the drawn code among live codes is not checked, and a colliding draw
replaces the existing room, as the counterexample shows. -/
theorem C7_insert (rooms : List (String × Room)) (code sid : String) :
    (createGame rooms code sid).2 = code
  ∧ objGet (createGame rooms code sid).1 code = some (initialRoom sid)
  ∧ (initialRoom sid).gameState.phase = Phase.waiting
  ∧ (initialRoom sid).players = []
  ∧ (initialRoom sid).scores = []
  ∧ (∀ c, c ≠ code → objGet (createGame rooms code sid).1 c = objGet rooms c)
  ∧ (objGet rooms code = none →
      (createGame rooms code sid).1 = rooms ++ [(code, initialRoom sid)]) := by
  refine ⟨rfl, objGet_objSet_self rooms code _, rfl, rfl, rfl, ?_, ?_⟩
  · intro c hc
    exact objGet_objSet_ne rooms code c _ (fun he => hc he.symm)
  · intro hn
    exact objSet_of_objGet_none rooms code _ hn

/-- C7 witness: creating a room under a fresh code leaves the room under
the other code untouched and appends the new entry. -/
theorem C7_insert_witness :
    ("R2" : String) ≠ "R1"
  ∧ objGet (createGame [("R2", duoRoom)] "R1" "A").1 "R2" = objGet [("R2", duoRoom)] "R2"
  ∧ objGet ([("R2", duoRoom)] : List (String × Room)) "R1" = none
  ∧ (createGame [("R2", duoRoom)] "R1" "A").1 = [("R2", duoRoom)] ++ [("R1", initialRoom "A")] :=
  ⟨by decide,
   (C7_insert [("R2", duoRoom)] "R1" "A").2.2.2.2.2.1 "R2" (by decide),
   by decide,
   (C7_insert [("R2", duoRoom)] "R1" "A").2.2.2.2.2.2 (by decide)⟩

/-- C10, counterexample: the claim states that a surviving room keeps its
players, scores, host and game state unchanged unless the disconnecting
connection was a member or its host. The reachable room in which a vote
for the non-player id G created a score entry loses that entry when the
connection G disconnects, although G was neither a member nor the host. -/
theorem C10_counterexample :
    ghostScoresRoom.players.map Player.id = ["A"]
  ∧ ghostScoresRoom.host = "A"
  ∧ ("G" : String) ∉ ghostScoresRoom.players.map Player.id
  ∧ objGet ghostScoresRoom.scores "G" = some JsNum.nan
  ∧ disconnect [("R1", ghostScoresRoom)] "G"
      = [("R1", { ghostScoresRoom with scores := [("A", JsNum.int 0)] })]
  ∧ ({ ghostScoresRoom with scores := [("A", JsNum.int 0)] } : Room) ≠ ghostScoresRoom := by
  decide

/-- C10, amended: a disconnect updates every room and deletes exactly the
rooms left with no players, including rooms whose players list was already
empty (such as a freshly created room the connection never joined); a
surviving room keeps its game state always, its players unless the
connection was a member, its host unless the connection was the host, and
its scores unless the connection had a score entry, where score entries
can exist for non-members. -/
theorem C10_disconnect (rooms : List (String × Room)) (sid code : String) (room : Room)
    (hnd : (objKeys rooms).Nodup) (h : objGet rooms code = some room) :
    (objGet (disconnect rooms sid) code =
      if (disconnectRoom sid room).players = [] then none
      else some (disconnectRoom sid room))
  ∧ (room.players = [] → objGet (disconnect rooms sid) code = none)
  ∧ (disconnectRoom sid room).gameState = room.gameState
  ∧ (sid ∉ room.players.map Player.id → (disconnectRoom sid room).players = room.players)
  ∧ (room.host ≠ sid → (disconnectRoom sid room).host = room.host)
  ∧ (sid ∉ objKeys room.scores → (disconnectRoom sid room).scores = room.scores) := by
  have hmap : objGet (rooms.map (fun cr => (cr.1, disconnectRoom sid cr.2))) code
      = some (disconnectRoom sid room) := by
    rw [objGet_map_value rooms (disconnectRoom sid) code, h]
    rfl
  have hmnd : (objKeys (rooms.map (fun cr => (cr.1, disconnectRoom sid cr.2)))).Nodup := by
    rw [objKeys_map_value]
    exact hnd
  have hfil := objGet_filter _ (fun cr => decide (cr.2.players.length ≠ 0)) code
    (disconnectRoom sid room) hmnd hmap
  have hmain : objGet (disconnect rooms sid) code =
      if (disconnectRoom sid room).players = [] then none
      else some (disconnectRoom sid room) := by
    rw [disconnect, hfil]
    by_cases he : (disconnectRoom sid room).players = []
    · simp [he]
    · have hlen : (disconnectRoom sid room).players.length ≠ 0 := by
        simpa [List.length_eq_zero] using he
      simp [he, hlen]
  refine ⟨hmain, ?_, rfl, ?_, ?_, ?_⟩
  · intro hp
    have he : (disconnectRoom sid room).players = [] := by
      rw [disconnectRoom_players, hp]
      rfl
    rw [hmain, if_pos he]
  · intro hs
    rw [disconnectRoom_players]
    apply List.filter_eq_self.mpr
    intro q hq
    simp only [decide_eq_true_eq]
    intro hqe
    exact hs (hqe ▸ List.mem_map_of_mem Player.id hq)
  · intro hh
    rw [disconnectRoom_host, if_neg hh]
  · intro hs
    rw [disconnectRoom_scores]
    exact objDelete_of_not_mem room.scores sid hs

/-- C10 witness: in a two-room registry, a disconnect of a connection in
no room keeps the addressed room and leaves its scores unchanged. -/
theorem C10_disconnect_witness :
    (objKeys ([("R1", duoRoom), ("R2", soloRoom)] : List (String × Room))).Nodup
  ∧ objGet [("R1", duoRoom), ("R2", soloRoom)] "R1" = some duoRoom
  ∧ objGet (disconnect [("R1", duoRoom), ("R2", soloRoom)] "Z") "R1" =
      (if (disconnectRoom "Z" duoRoom).players = [] then none
       else some (disconnectRoom "Z" duoRoom))
  ∧ (disconnectRoom "Z" duoRoom).scores = duoRoom.scores :=
  ⟨by decide, by decide,
   (C10_disconnect [("R1", duoRoom), ("R2", soloRoom)] "Z" "R1" duoRoom
     (by decide) (by decide)).1,
   (C10_disconnect [("R1", duoRoom), ("R2", soloRoom)] "Z" "R1" duoRoom
     (by decide) (by decide)).2.2.2.2.2 (by decide)⟩

end AiLarious
